import Mathlib

/-!
Shallow embedding of the repository file parsing.py (a Russian complement-clause
annotator) and proofs about it.

The external collaborators are modelled as explicit read-only parameters:
the dependency parser becomes a function from a sentence string to a list of
tokens, and the morphological analyzer (pymorphy, whose top-ranked parse is
the only one the code ever reads) becomes a function from a surface form to a
record with a normal form and optional tense and aspect tags.

Tokens mirror spacy tokens: equality between spacy tokens of one document is
positional, so token references (head, comparisons) are embedded as indices.
-/

namespace Parsing

/-- Morphological feature map of a token, as spacy exposes it: a category is
an ordered list of value strings, empty when the category is unmarked.
The code only ever reads Person and Number. -/
structure Morph where
  person : List String := []
  number : List String := []
deriving DecidableEq, Repr

/-- A parsed token, mirroring the spacy token attributes the code reads:
position, surface form, lemma, part of speech, dependency label, head
(as an index into the sentence; the root is its own head) and morphology. -/
structure Token where
  i : Nat := 0
  text : String := ""
  lemma_ : String := ""
  pos_ : String := ""
  dep_ : String := ""
  head : Nat := 0
  morph : Morph := {}
deriving DecidableEq, Repr

instance : Inhabited Token := ⟨{}⟩

/-- A parsed sentence is the ordered list of its tokens. -/
abbrev Doc := List Token

/-- The top-ranked pymorphy analysis of a surface form: its dictionary
(normal) form and the optional tense and aspect tags of its grammatical tag.
This stands for m.parse(text)[0] in the code. -/
structure Pym where
  normal_form : String := ""
  tense : Option String := none
  aspect : Option String := none
deriving DecidableEq, Repr

/-- Dereference a head index inside a document (spacy's token.head). Real
documents always carry in-range head indices; out of range falls back to a
default token. -/
def headTok (doc : Doc) (t : Token) : Token :=
  (doc.get? t.head).getD default

/-- Substring test on character lists, used to embed Python's
"subj" in token.dep_ membership test. -/
def hasSubChars (pat : List Char) : List Char → Bool
  | [] => pat.isEmpty
  | c :: rest => pat.isPrefixOf (c :: rest) || hasSubChars pat rest

/-- Python's substring containment test pat in s. -/
def strContains (s pat : String) : Bool :=
  hasSubChars pat.toList s.toList

/-- Condition of the first cascade loop of find_target_tokens: a token that
depends on the target with label ccomp, xcomp or conj. -/
def tier1 (token t2 : Token) : Bool :=
  (["ccomp", "xcomp", "conj"] : List String).contains t2.dep_ && t2.head == token.i

/-- Condition of the second cascade loop: label advcl, acl or parataxis. -/
def tier2 (token t2 : Token) : Bool :=
  (["advcl", "acl", "parataxis"] : List String).contains t2.dep_ && t2.head == token.i

/-- Condition of the third cascade loop: an obj or obl dependent that is a
noun or adjective. -/
def tier3 (token t2 : Token) : Bool :=
  (["obj", "obl"] : List String).contains t2.dep_ &&
    (["NOUN", "ADJ"] : List String).contains t2.pos_ && t2.head == token.i

/-- Condition of the fourth cascade loop: the target itself is a parataxis
dependent and the scanned token is its head. -/
def tier4 (token t2 : Token) : Bool :=
  (["parataxis"] : List String).contains token.dep_ && token.head == t2.i

/-- Condition of the fifth cascade loop: the scanned token's head's head is
the target, its own label is a subordinate-clause label and its immediate
head is labelled obl. -/
def tier5 (doc : Doc) (token t2 : Token) : Bool :=
  (headTok doc t2).head == token.i &&
    (["ccomp", "advcl", "xcomp", "parataxis", "conj", "acl"] : List String).contains t2.dep_ &&
    (headTok doc t2).dep_ == "obl"

/-- The five inner loops of find_target_tokens, run for one candidate target
token: each loop is a full left-to-right scan returning the first token
satisfying its condition, and the loops are tried in order. -/
def cascade (doc : Doc) (token : Token) : Option (Token × Token) :=
  match doc.find? (tier1 token) with
  | some t2 => some (token, t2)
  | none =>
  match doc.find? (tier2 token) with
  | some t2 => some (token, t2)
  | none =>
  match doc.find? (tier3 token) with
  | some t2 => some (token, t2)
  | none =>
  match doc.find? (tier4 token) with
  | some t2 => some (token, t2)
  | none =>
  match doc.find? (tier5 doc token) with
  | some t2 => some (token, t2)
  | none => none

/-- Guard of the outer loop of find_target_tokens: the token's spacy lemma or
its pymorphy normal form equals the requested verb. -/
def matchesVerb (morph : String → Pym) (verb : String) (t : Token) : Bool :=
  t.lemma_ == verb || (morph t.text).normal_form == verb

/-- The outer loop of find_target_tokens over the remaining tokens: for each
token matching the verb the cascade is run; if it produces nothing the outer
loop continues with the next token. -/
def fttGo (morph : String → Pym) (doc : Doc) (verb : String) : List Token → Option (Token × Token)
  | [] => none
  | token :: rest =>
    if matchesVerb morph verb token then
      match cascade doc token with
      | some p => some p
      | none => fttGo morph doc verb rest
    else fttGo morph doc verb rest

/-- Embedding of find_target_tokens: find the target verb and the head of its
subordinate clause. Returns none when the whole outer loop falls through
(the Python function returns None implicitly). -/
def find_target_tokens (morph : String → Pym) (doc : Doc) (verb : String) :
    Option (Token × Token) :=
  fttGo morph doc verb doc

/-- Embedding of check_for_negation: scan for a token that depends directly
on the target and whose lemma is the negative particle. -/
def check_for_negation (target : Token) (doc : Doc) : String :=
  match doc.find? (fun token => token.head == target.i && token.lemma_ == "не") with
  | some _ => "negation"
  | none => "no"

/-- The closed conjunction lemma list of find_conjunction. -/
def conjLemmas : List String :=
  ["что", "чтобы", "будто", "но", "как", "какой", "когда"]

/-- The while loop of find_conjunction. The list argument is the suffix of
the document starting at position token1.i + i, so that its head is what
token1.nbor(i) returns; an empty suffix means nbor is out of range, which in
spacy raises IndexError, embedded as an error value. After a token is
processed the loop breaks (returning the dash) as soon as
token1.i + (i + 1) exceeds the last position, mirroring the guard in the
source. -/
def fcLoop (docLen t1i t2i : Nat) : Nat → List Token → Except Unit String
  | _, [] => Except.error ()
  | i, target :: rest =>
    if target.i == t2i then Except.ok "-"
    else if target.pos_ == "CSUBJ" || target.dep_ == "mark" then Except.ok target.lemma_
    else if conjLemmas.contains target.lemma_ then Except.ok target.lemma_
    else if docLen - 1 < t1i + (i + 1) then Except.ok "-"
    else fcLoop docLen t1i t2i (i + 1) rest

/-- Embedding of find_conjunction: walk the tokens after token1 in linear
order until token2's position or the end of the sentence, returning the first
conjunction cue found. The error value models the IndexError that
token1.nbor(i) raises when position token1.i + i does not exist. -/
def find_conjunction (token1 token2 : Token) (doc : Doc) : Except Unit String :=
  fcLoop doc.length token1.i token2.i 1 (List.drop (token1.i + 1) doc)

/-- Specification-side scan for the conjunction (section 4.4 of the spec,
amended): walk a token list in order; reaching a token at the subordinate
position stops the scan with a dash; a CSUBJ token, a mark-labelled token or
a member of the closed conjunction set returns its lemma; an exhausted list
gives a dash. -/
def conjSpecScan (t2i : Nat) : List Token → String
  | [] => "-"
  | t :: rest =>
    if t.i == t2i then "-"
    else if t.pos_ == "CSUBJ" || t.dep_ == "mark" || conjLemmas.contains t.lemma_ then t.lemma_
    else conjSpecScan t2i rest

/-- Spacy's morph.get with a default: the stored value list when the
category is marked, the default otherwise. -/
def getMorphD (l d : List String) : List String :=
  if l == [] then d else l

/-- The end-of-function normalization of check_gr: a falsy value (empty
list, standing for an unmarked category or Python None) becomes the dash,
and otherwise the first value is retained (the source's value[0]; the
literal dash string also indexes to the dash). -/
def finalize : List String → String
  | [] => "-"
  | x :: _ => x

/-- Wrap an optional pymorphy tag the way the source does: a present tag
becomes a one-element list ([str(tag)]), an absent one stays falsy. -/
def optList : Option String → List String
  | some s => [s]
  | none => []

/-- Spacy's token.ancestors with the fuel bound used by its implementation:
follow the head chain, stopping at the root (its own head) or after at most
document-length steps. -/
def ancAux (doc : Doc) : Nat → Token → List Token
  | 0, _ => []
  | fuel + 1, t =>
    if t.head == t.i then []
    else
      match doc.get? t.head with
      | none => []
      | some h => h :: ancAux doc fuel h

/-- Ancestors of a token: its head, its head's head, and so on up to the
root. -/
def ancestors (doc : Doc) (t : Token) : List Token :=
  ancAux doc doc.length t

/-- Spacy's token.children: the tokens whose head is this token, in linear
order, the token itself excluded (the root is not its own child). -/
def children (doc : Doc) (t : Token) : List Token :=
  doc.filter (fun c => c.head == t.i && !(c.i == t.i))

/-- One step of the subject-agreement fallback loop of check_gr, for one
scanned token: when its dependency label contains subj, first the
direct-head check may overwrite the person/number state, then the
ancestor-children check runs over all its ancestors and all their children,
each hit overwriting the state again. There is no early exit. -/
def subjStep (doc : Doc) (target : Token) (st : List String × List String)
    (token : Token) : List String × List String :=
  if strContains token.dep_ "subj" then
    let st1 :=
      if token.head == target.i then
        (getMorphD token.morph.person ["Third"], token.morph.number)
      else st
    (ancestors doc token).foldl
      (fun st2 anc =>
        (children doc anc).foldl
          (fun st3 child =>
            if child.i == target.i then
              (getMorphD child.morph.person ["Third"], child.morph.number)
            else st3)
          st2)
      st1
  else st

/-- The whole subject-agreement fallback loop of check_gr: a fold of
subjStep over the sentence. -/
def subjFallback (doc : Doc) (target : Token) (init : List String × List String) :
    List String × List String :=
  doc.foldl (subjStep doc target) init

/-- Embedding of check_gr: resolve tense, person, number and aspect for a
token. Verbs take tense and aspect from the pymorphy tag of their surface
form and person/number from spacy morphology, with the subject-agreement
fallback when person is unmarked; nouns and pronouns default person to
Third; any other part of speech searches for the first direct subj
dependent. -/
def check_gr (morph : String → Pym) (target : Token) (doc : Doc) :
    String × String × String × String :=
  if target.pos_ == "VERB" then
    let tense := optList (morph target.text).tense
    let aspect := optList (morph target.text).aspect
    let number := target.morph.number
    let person := target.morph.person
    let pn :=
      if person == [] then subjFallback doc target (person, number)
      else (person, number)
    (finalize tense, finalize pn.1, finalize pn.2, finalize aspect)
  else if target.pos_ == "NOUN" || target.pos_ == "PRON" then
    ("-", finalize (getMorphD target.morph.person ["Third"]),
      finalize (getMorphD target.morph.number ["-"]), "-")
  else
    match doc.find? (fun token => token.head == target.i && strContains token.dep_ "subj") with
    | some token =>
      ("-", finalize (getMorphD token.morph.person ["Third"]),
        finalize token.morph.number, "-")
    | none => ("-", "-", "-", "-")

/-- The raw-tag-to-canonical-value mapping of make_new_df, as the function
the applymap lambda applies to every cell of the sliced columns:
mapping.get(x, x), so an unmapped value passes through unchanged. The
Python dict also maps None to the dash; cells of the assembled records are
always strings, so that key is unreachable and is not part of the string
function. -/
def mapping_get (x : String) : String :=
  if x == "Past" then "past"
  else if x == "pres" then "present"
  else if x == "Pres" then "present"
  else if x == "futr" then "future"
  else if x == "Fut" then "future"
  else if x == "First" then "first"
  else if x == "Second" then "second"
  else if x == "Third" then "third"
  else if x == "Sing" then "singular"
  else if x == "Plur" then "plural"
  else if x == "perf" then "pf"
  else if x == "impf" then "ipf"
  else x

/-- The keys of the raw-tag mapping (its string keys; the None key is
unreachable for string cells). -/
def mappingKeys : List String :=
  ["Past", "pres", "Pres", "futr", "Fut", "First", "Second", "Third",
   "Sing", "Plur", "perf", "impf"]

/-- The canonical vocabulary of derived grammatical values named by the
spec. -/
def canonVocab : List String :=
  ["past", "present", "future", "first", "second", "third", "singular",
   "plural", "pf", "ipf", "-"]

/-- An input row: Source, Verb, PreContext, Target, PostContext. -/
structure InputRecord where
  Source : String := ""
  Verb : String := ""
  PreContext : String := ""
  Target : String := ""
  PostContext : String := ""
deriving DecidableEq, Repr

/-- An output row of make_new_df. -/
structure OutputRecord where
  Source : String := ""
  Verb : String := ""
  Embedding : String := ""
  PreContext : String := ""
  Target : String := ""
  PostContext : String := ""
  MatTense : String := ""
  MatSubjPers : String := ""
  MatSubjNum : String := ""
  MatAspect : String := ""
  SubTense : String := ""
  SubSubjPers : String := ""
  SubSubjNum : String := ""
  SubAspect : String := ""
  Conjunction : String := ""
deriving DecidableEq, Repr

instance : Inhabited OutputRecord := ⟨{}⟩

/-- The eight derived grammatical fields of an output record (main and
subordinate tense, person, number and aspect). -/
def derivedFields (r : OutputRecord) : List String :=
  [r.MatTense, r.MatSubjPers, r.MatSubjNum, r.MatAspect,
   r.SubTense, r.SubSubjPers, r.SubSubjNum, r.SubAspect]

/-- One iteration of the loop of make_new_df: parse the row's Target, run
find_target_tokens, and assemble the record; an absent pair yields the
all-dash record, and a found pair runs check_for_negation, check_gr twice
and find_conjunction. The error value propagates the exception that
find_conjunction may raise; all other calls are pure, so hoisting the
conjunction match over them preserves the result, including the abort. -/
def buildRecord (nlp : String → Doc) (morph : String → Pym) (row : InputRecord) :
    Except Unit OutputRecord :=
  match find_target_tokens morph (nlp row.Target) row.Verb with
  | none =>
    Except.ok
      { Source := row.Source, Verb := row.Verb, Embedding := "-",
        PreContext := row.PreContext, Target := row.Target,
        PostContext := row.PostContext,
        MatTense := "-", MatSubjPers := "-", MatSubjNum := "-", MatAspect := "-",
        SubTense := "-", SubSubjPers := "-", SubSubjNum := "-", SubAspect := "-",
        Conjunction := "-" }
  | some (token1, token2) =>
    match find_conjunction token1 token2 (nlp row.Target) with
    | Except.error e => Except.error e
    | Except.ok conj =>
      Except.ok
        { Source := row.Source, Verb := row.Verb,
          Embedding := check_for_negation token1 (nlp row.Target),
          PreContext := row.PreContext, Target := row.Target,
          PostContext := row.PostContext,
          MatTense := (check_gr morph token1 (nlp row.Target)).1,
          MatSubjPers := (check_gr morph token1 (nlp row.Target)).2.1,
          MatSubjNum := (check_gr morph token1 (nlp row.Target)).2.2.1,
          MatAspect := (check_gr morph token1 (nlp row.Target)).2.2.2,
          SubTense := (check_gr morph token2 (nlp row.Target)).1,
          SubSubjPers := (check_gr morph token2 (nlp row.Target)).2.1,
          SubSubjNum := (check_gr morph token2 (nlp row.Target)).2.2.1,
          SubAspect := (check_gr morph token2 (nlp row.Target)).2.2.2,
          Conjunction := conj }

/-- The record-building loop of make_new_df over all rows, in order; the
first raised exception aborts the whole batch, as in Python. -/
def buildRows (nlp : String → Doc) (morph : String → Pym) :
    List InputRecord → Except Unit (List OutputRecord)
  | [] => Except.ok []
  | row :: rest =>
    match buildRecord nlp morph row with
    | Except.error e => Except.error e
    | Except.ok r =>
      match buildRows nlp morph rest with
      | Except.error e => Except.error e
      | Except.ok rs => Except.ok (r :: rs)

/-- The applymap over the MatTense..Conjunction column slice: every one of
those nine cells goes through mapping_get; Embedding and the provenance
columns are outside the slice and untouched. -/
def normalizeRecord (r : OutputRecord) : OutputRecord :=
  { r with
    MatTense := mapping_get r.MatTense,
    MatSubjPers := mapping_get r.MatSubjPers,
    MatSubjNum := mapping_get r.MatSubjNum,
    MatAspect := mapping_get r.MatAspect,
    SubTense := mapping_get r.SubTense,
    SubSubjPers := mapping_get r.SubSubjPers,
    SubSubjNum := mapping_get r.SubSubjNum,
    SubAspect := mapping_get r.SubAspect,
    Conjunction := mapping_get r.Conjunction }

/-- Embedding of make_new_df: build one record per input row, then apply the
raw-tag mapping to the derived columns of every record. -/
def make_new_df (nlp : String → Doc) (morph : String → Pym)
    (rows : List InputRecord) : Except Unit (List OutputRecord) :=
  match buildRows nlp morph rows with
  | Except.error e => Except.error e
  | Except.ok recs => Except.ok (recs.map normalizeRecord)

theorem mapping_get_unmapped (x : String) (h1 : x ≠ "Past") (h2 : x ≠ "pres")
    (h3 : x ≠ "Pres") (h4 : x ≠ "futr") (h5 : x ≠ "Fut") (h6 : x ≠ "First")
    (h7 : x ≠ "Second") (h8 : x ≠ "Third") (h9 : x ≠ "Sing") (h10 : x ≠ "Plur")
    (h11 : x ≠ "perf") (h12 : x ≠ "impf") : mapping_get x = x := by
  unfold mapping_get
  rw [if_neg (by simp [h1]), if_neg (by simp [h2]), if_neg (by simp [h3]),
    if_neg (by simp [h4]), if_neg (by simp [h5]), if_neg (by simp [h6]),
    if_neg (by simp [h7]), if_neg (by simp [h8]), if_neg (by simp [h9]),
    if_neg (by simp [h10]), if_neg (by simp [h11]), if_neg (by simp [h12])]

theorem mapping_get_not_mem (x : String) : mapping_get x ∉ mappingKeys := by
  by_cases h1 : x = "Past"
  · subst h1; decide
  by_cases h2 : x = "pres"
  · subst h2; decide
  by_cases h3 : x = "Pres"
  · subst h3; decide
  by_cases h4 : x = "futr"
  · subst h4; decide
  by_cases h5 : x = "Fut"
  · subst h5; decide
  by_cases h6 : x = "First"
  · subst h6; decide
  by_cases h7 : x = "Second"
  · subst h7; decide
  by_cases h8 : x = "Third"
  · subst h8; decide
  by_cases h9 : x = "Sing"
  · subst h9; decide
  by_cases h10 : x = "Plur"
  · subst h10; decide
  by_cases h11 : x = "perf"
  · subst h11; decide
  by_cases h12 : x = "impf"
  · subst h12; decide
  rw [mapping_get_unmapped x h1 h2 h3 h4 h5 h6 h7 h8 h9 h10 h11 h12]
  simp only [mappingKeys, List.mem_cons, List.not_mem_nil, or_false]
  tauto

theorem mapping_get_eq_self (x : String) (h : x ∉ mappingKeys) : mapping_get x = x := by
  simp only [mappingKeys, List.mem_cons, List.not_mem_nil, or_false] at h
  push_neg at h
  obtain ⟨h1, h2, h3, h4, h5, h6, h7, h8, h9, h10, h11, h12⟩ := h
  exact mapping_get_unmapped x h1 h2 h3 h4 h5 h6 h7 h8 h9 h10 h11 h12

/-- Claim C7: the FeatureNormalizer mapping is idempotent: for every field
value, applying the raw-tag-to-canonical mapping twice yields the same
result as applying it once; no value in its range is one of its keys, and
unmapped values pass through unchanged. -/
theorem mapping_get_idempotent (x : String) : mapping_get (mapping_get x) = mapping_get x :=
  mapping_get_eq_self _ (mapping_get_not_mem x)

/-- Claim C6: check_for_negation returns the negation verdict exactly when
some token of the sentence has the target as head and the fixed negative
particle as lemma, and the no verdict otherwise; only direct dependents are
inspected. -/
theorem check_for_negation_iff (target : Token) (doc : Doc) :
    check_for_negation target doc =
      if ∃ t ∈ doc, t.head = target.i ∧ t.lemma_ = "не" then "negation" else "no" := by
  unfold check_for_negation
  rcases hf : doc.find? (fun token => token.head == target.i && token.lemma_ == "не")
      with _ | tok
  · simp only [hf]
    rw [List.find?_eq_none] at hf
    have hne : ¬∃ t ∈ doc, t.head = target.i ∧ t.lemma_ = "не" := by
      rintro ⟨t, ht, h1, h2⟩
      exact (hf t ht) (by simp [h1, h2])
    rw [if_neg hne]
  · simp only [hf]
    have hp := List.find?_some hf
    have hm := List.mem_of_find?_eq_some hf
    simp only [Bool.and_eq_true, beq_iff_eq] at hp
    rw [if_pos ⟨tok, hm, hp.1, hp.2⟩]

def subC2 : Token := { i := 0, lemma_ := "пришёл", pos_ := "VERB", dep_ := "ROOT", head := 0 }

def mainC2 : Token := { i := 1, lemma_ := "думать", pos_ := "VERB", dep_ := "parataxis", head := 0 }

def docC2 : Doc := [subC2, mainC2]

/-- Claim C2 (code bug): find_conjunction is supposed to return a string for
every pair, but when the main token is the last token of the sentence the
very first neighbour access is out of range and raises before the bounds
guard runs; the embedding returns the error value there. -/
theorem find_conjunction_error_at_last_token :
    mainC2 ∈ docC2 ∧ mainC2.i = docC2.length - 1 ∧
      find_conjunction mainC2 subC2 docC2 = Except.error () :=
  ⟨by decide, by decide, rfl⟩

theorem fcLoop_ok (t1i t2i docLen : Nat) (rest : List Token) :
    ∀ i : Nat, rest ≠ [] → t1i + i + rest.length = docLen →
      fcLoop docLen t1i t2i i rest = Except.ok (conjSpecScan t2i rest) := by
  induction rest with
  | nil => intro i h _; exact absurd rfl h
  | cons target rest ih =>
    intro i _ hlen
    unfold fcLoop conjSpecScan
    cases h1 : target.i == t2i
    · cases h2 : (target.pos_ == "CSUBJ" || target.dep_ == "mark")
      · cases h3 : conjLemmas.contains target.lemma_
        · simp only [h1, h2, h3, Bool.false_eq_true, if_false, Bool.or_false]
          cases rest with
          | nil =>
            simp only [List.length_cons, List.length_nil] at hlen
            rw [if_pos (by omega)]
            rfl
          | cons r rs =>
            simp only [List.length_cons] at hlen
            rw [if_neg (by omega)]
            exact ih (i + 1) (by simp) (by simp [List.length_cons]; omega)
        · simp [h1, h2, h3]
      · simp [h1, h2]
    · simp [h1]

/-- Claim C4 (amended): find_conjunction walks the tokens after the main
token in linear order, stopping at the subordinate token's position or the
end of the sentence, and returns the lemma of the first walked token that is
CSUBJ, labelled mark, or in the fixed conjunction set, and the dash
otherwise; when the subordinate token precedes the main token the walk
simply runs from one past the main token to the end of the sentence and may
return a conjunction cue found there. The hypothesis excludes the
out-of-range neighbour access of a sentence-final main token, which raises
instead of returning. -/
theorem find_conjunction_scan_eq (token1 token2 : Token) (doc : Doc)
    (h : token1.i + 1 < doc.length) :
    find_conjunction token1 token2 doc =
      Except.ok (conjSpecScan token2.i (List.drop (token1.i + 1) doc)) := by
  unfold find_conjunction
  apply fcLoop_ok
  · have hp : 0 < (List.drop (token1.i + 1) doc).length := by
      rw [List.length_drop]; omega
    exact List.length_pos.mp hp
  · rw [List.length_drop]; omega

def subW4 : Token := { i := 2, lemma_ := "прийти", pos_ := "VERB", dep_ := "ccomp", head := 0 }

def mainW4 : Token := { i := 0, lemma_ := "думать", pos_ := "VERB", dep_ := "ROOT", head := 0 }

def midW4 : Token := { i := 1, lemma_ := "что", pos_ := "SCONJ", dep_ := "mark", head := 2 }

def docW4 : Doc := [mainW4, midW4, subW4]

/-- Witness for the amended claim C4 at a concrete sentence. -/
theorem find_conjunction_scan_eq_witness :
    mainW4.i + 1 < docW4.length ∧
      find_conjunction mainW4 subW4 docW4 =
        Except.ok (conjSpecScan subW4.i (List.drop (mainW4.i + 1) docW4)) :=
  ⟨by decide, find_conjunction_scan_eq mainW4 subW4 docW4 (by decide)⟩

def subC4 : Token := { i := 0, lemma_ := "прийти", pos_ := "VERB", dep_ := "ccomp", head := 1 }

def mainC4 : Token := { i := 1, lemma_ := "думать", pos_ := "VERB", dep_ := "ROOT", head := 1 }

def aftC4 : Token := { i := 2, lemma_ := "что", pos_ := "SCONJ", dep_ := "cc", head := 1 }

def docC4 : Doc := [subC4, mainC4, aftC4]

/-- Claim C4 counterexample: the subordinate token precedes the main token,
so no token lies strictly between them, yet find_conjunction returns a
conjunction lemma found after the main token rather than the dash. -/
theorem find_conjunction_sub_before_main :
    subC4.i < mainC4.i ∧ find_conjunction mainC4 subC4 docC4 = Except.ok "что" :=
  ⟨by decide, rfl⟩

def pymC1 : String → Pym := fun _ => {}

def tokC1a : Token := { i := 0, text := "думал", lemma_ := "думать", pos_ := "VERB", dep_ := "acl", head := 1 }

def tokC1b : Token := { i := 1, text := "думаю", lemma_ := "думать", pos_ := "VERB", dep_ := "ROOT", head := 1 }

def tokC1c : Token := { i := 2, text := "придёт", lemma_ := "прийти", pos_ := "VERB", dep_ := "ccomp", head := 1 }

def docC1 : Doc := [tokC1a, tokC1b, tokC1c]

/-- Claim C1 counterexample: in this sentence the first token whose lemma
matches the requested verb is tokC1a, all five cascade tiers fail for it,
and yet find_target_tokens does not return nothing: the outer loop falls
through to the later occurrence tokC1b and returns a pair for it. -/
theorem find_target_tokens_not_first_only :
    List.find? (matchesVerb pymC1 "думать") docC1 = some tokC1a ∧
      cascade docC1 tokC1a = none ∧
      find_target_tokens pymC1 docC1 "думать" = some (tokC1b, tokC1c) :=
  ⟨rfl, rfl, rfl⟩

/-- Claim C1 (amended): the target search does not stop at the first
lemma-matching token: every token whose lemma or pymorphy normal form equals
the requested verb is tried in ascending index order, the cascade is run for
each, and the result comes from the first matching token whose cascade
succeeds; nothing is returned exactly when the cascades of all matching
tokens fail. -/
theorem find_target_tokens_tries_all_matches (morph : String → Pym) (doc : Doc)
    (verb : String) :
    find_target_tokens morph doc verb =
      (doc.filter (matchesVerb morph verb)).findSome? (cascade doc) := by
  unfold find_target_tokens
  suffices h : ∀ l : List Token,
      fttGo morph doc verb l = (l.filter (matchesVerb morph verb)).findSome? (cascade doc)
    from h doc
  intro l
  induction l with
  | nil => rfl
  | cons t rest ih =>
    unfold fttGo
    cases hm : matchesVerb morph verb t with
    | false => simp [hm, List.filter_cons, ih]
    | true =>
      simp only [hm, if_true, List.filter_cons, List.findSome?_cons]
      cases hc : cascade doc t <;> simp [hc, ih]

theorem cascade_eq_some (doc : Doc) (tok a b : Token) (h : cascade doc tok = some (a, b)) :
    a = tok ∧
      (tier1 tok b = true ∨ tier2 tok b = true ∨ tier3 tok b = true ∨
        tier4 tok b = true ∨ tier5 doc tok b = true) := by
  unfold cascade at h
  split at h
  · next t2 heq =>
    obtain ⟨rfl, rfl⟩ : tok = a ∧ t2 = b := by simpa using h
    exact ⟨rfl, Or.inl (List.find?_some heq)⟩
  · split at h
    · next t2 heq =>
      obtain ⟨rfl, rfl⟩ : tok = a ∧ t2 = b := by simpa using h
      exact ⟨rfl, Or.inr (Or.inl (List.find?_some heq))⟩
    · split at h
      · next t2 heq =>
        obtain ⟨rfl, rfl⟩ : tok = a ∧ t2 = b := by simpa using h
        exact ⟨rfl, Or.inr (Or.inr (Or.inl (List.find?_some heq)))⟩
      · split at h
        · next t2 heq =>
          obtain ⟨rfl, rfl⟩ : tok = a ∧ t2 = b := by simpa using h
          exact ⟨rfl, Or.inr (Or.inr (Or.inr (Or.inl (List.find?_some heq))))⟩
        · split at h
          · next t2 heq =>
            obtain ⟨rfl, rfl⟩ : tok = a ∧ t2 = b := by simpa using h
            exact ⟨rfl, Or.inr (Or.inr (Or.inr (Or.inr (List.find?_some heq))))⟩
          · exact absurd h (by simp)

theorem fttGo_some (morph : String → Pym) (doc : Doc) (verb : String) (t s : Token)
    (l : List Token) (h : fttGo morph doc verb l = some (t, s)) :
    matchesVerb morph verb t = true ∧ cascade doc t = some (t, s) := by
  induction l with
  | nil => exact absurd h (by simp [fttGo])
  | cons tok rest ih =>
    unfold fttGo at h
    cases hm : matchesVerb morph verb tok with
    | false =>
      rw [hm] at h
      exact ih (by simpa using h)
    | true =>
      rw [hm] at h
      simp only [if_true] at h
      rcases hc : cascade doc tok with _ | p
      · rw [hc] at h
        exact ih h
      · rw [hc] at h
        simp only [Option.some.injEq] at h
        subst h
        obtain ⟨hfst, -⟩ := cascade_eq_some doc tok t s hc
        subst hfst
        exact ⟨hm, hc⟩

/-- Claim C10: whenever find_target_tokens returns a pair, the target token
matches the requested verb by lemma or pymorphy normal form, and the pair
satisfies the disjunction of the five tier postconditions. -/
theorem find_target_tokens_postcondition (morph : String → Pym) (doc : Doc)
    (verb : String) (t s : Token)
    (h : find_target_tokens morph doc verb = some (t, s)) :
    (t.lemma_ = verb ∨ (morph t.text).normal_form = verb) ∧
      ((s.head = t.i ∧ s.dep_ ∈ (["ccomp", "xcomp", "conj"] : List String)) ∨
        (s.head = t.i ∧ s.dep_ ∈ (["advcl", "acl", "parataxis"] : List String)) ∨
        (s.head = t.i ∧ s.pos_ ∈ (["NOUN", "ADJ"] : List String) ∧
          s.dep_ ∈ (["obj", "obl"] : List String)) ∨
        (t.dep_ = "parataxis" ∧ t.head = s.i) ∨
        ((headTok doc s).head = t.i ∧
          s.dep_ ∈ (["ccomp", "advcl", "xcomp", "parataxis", "conj", "acl"] : List String) ∧
          (headTok doc s).dep_ = "obl")) := by
  obtain ⟨hm, hc⟩ := fttGo_some morph doc verb t s doc h
  obtain ⟨-, hd⟩ := cascade_eq_some doc t t s hc
  constructor
  · simpa [matchesVerb] using hm
  · rcases hd with h1 | h2 | h3 | h4 | h5
    · obtain ⟨hdep, hhead⟩ : s.dep_ ∈ (["ccomp", "xcomp", "conj"] : List String) ∧
          s.head = t.i := by simpa [tier1] using h1
      exact Or.inl ⟨hhead, hdep⟩
    · obtain ⟨hdep, hhead⟩ : s.dep_ ∈ (["advcl", "acl", "parataxis"] : List String) ∧
          s.head = t.i := by simpa [tier2] using h2
      exact Or.inr (Or.inl ⟨hhead, hdep⟩)
    · obtain ⟨⟨hdep, hpos⟩, hhead⟩ : ((s.dep_ = "obj" ∨ s.dep_ = "obl") ∧
          (s.pos_ = "NOUN" ∨ s.pos_ = "ADJ")) ∧ s.head = t.i := by
        simpa [tier3] using h3
      exact Or.inr (Or.inr (Or.inl ⟨hhead, by simpa using hpos, by simpa using hdep⟩))
    · obtain ⟨hdep, hhead⟩ : t.dep_ = "parataxis" ∧ t.head = s.i := by
        simpa [tier4] using h4
      exact Or.inr (Or.inr (Or.inr (Or.inl ⟨hdep, hhead⟩)))
    · obtain ⟨⟨hhh, hdep⟩, hhd⟩ : ((headTok doc s).head = t.i ∧
          (s.dep_ = "ccomp" ∨ s.dep_ = "advcl" ∨ s.dep_ = "xcomp" ∨
            s.dep_ = "parataxis" ∨ s.dep_ = "conj" ∨ s.dep_ = "acl")) ∧
          (headTok doc s).dep_ = "obl" := by simpa [tier5] using h5
      exact Or.inr (Or.inr (Or.inr (Or.inr ⟨hhh, by simpa using hdep, hhd⟩)))

def pymW10 : String → Pym := fun _ => {}

def vW10 : Token := { i := 0, text := "думаю", lemma_ := "думать", pos_ := "VERB", dep_ := "ROOT", head := 0 }

def sW10 : Token := { i := 1, text := "придёт", lemma_ := "прийти", pos_ := "VERB", dep_ := "ccomp", head := 0 }

def docW10 : Doc := [vW10, sW10]

/-- Witness for claim C10 at a concrete sentence whose pair comes from the
first tier. -/
theorem find_target_tokens_postcondition_witness :
    (vW10.lemma_ = "думать" ∨ (pymW10 vW10.text).normal_form = "думать") ∧
      ((sW10.head = vW10.i ∧ sW10.dep_ ∈ (["ccomp", "xcomp", "conj"] : List String)) ∨
        (sW10.head = vW10.i ∧ sW10.dep_ ∈ (["advcl", "acl", "parataxis"] : List String)) ∨
        (sW10.head = vW10.i ∧ sW10.pos_ ∈ (["NOUN", "ADJ"] : List String) ∧
          sW10.dep_ ∈ (["obj", "obl"] : List String)) ∨
        (vW10.dep_ = "parataxis" ∧ vW10.head = sW10.i) ∨
        ((headTok docW10 sW10).head = vW10.i ∧
          sW10.dep_ ∈ (["ccomp", "advcl", "xcomp", "parataxis", "conj", "acl"] : List String) ∧
          (headTok docW10 sW10).dep_ = "obl")) :=
  find_target_tokens_postcondition pymW10 docW10 "думать" vW10 sW10 rfl

theorem foldl_replace_eq_getLastD {α : Type} (l : List α) (init : α) :
    l.foldl (fun _ e => e) init = l.getLastD init := by
  induction l generalizing init with
  | nil => rfl
  | cons a l ih =>
    rw [List.foldl_cons, List.getLastD_cons]
    exact ih a

theorem foldl_ite_eq_filterMap {α β : Type} (p : β → Bool) (g : β → α) (l : List β)
    (st : α) :
    l.foldl (fun s b => if p b then g b else s) st =
      (l.filterMap (fun b => if p b then some (g b) else none)).foldl (fun _ e => e) st := by
  induction l generalizing st with
  | nil => rfl
  | cons b l ih =>
    cases hp : p b <;> simp [List.foldl_cons, List.filterMap_cons, hp, ih]

theorem foldl_flatMap_eq {α β γ : Type} (g : α → List β) (f : γ → β → γ) (l : List α)
    (st : γ) :
    (l.flatMap g).foldl f st = l.foldl (fun s a => (g a).foldl f s) st := by
  induction l generalizing st with
  | nil => rfl
  | cons a l ih => simp [List.flatMap_cons, List.foldl_append, List.foldl_cons, ih]

/-- The in-order list of person/number assignments that the
subject-agreement fallback would perform for one scanned token: nothing
when its label does not contain subj; otherwise first the assignment of the
direct-head check (when its head is the target), then one assignment per
hit of the ancestor-children check, in traversal order. -/
def tokenEffects (doc : Doc) (target : Token) (token : Token) :
    List (List String × List String) :=
  if strContains token.dep_ "subj" then
    (if token.head == target.i then
        [(getMorphD token.morph.person ["Third"], token.morph.number)]
      else []) ++
      (ancestors doc token).flatMap (fun anc =>
        (children doc anc).filterMap (fun child =>
          if child.i == target.i then
            some (getMorphD child.morph.person ["Third"], child.morph.number)
          else none))
  else []

/-- The in-order list of all person/number assignments the fallback loop
performs over the whole sentence. -/
def subjEffects (doc : Doc) (target : Token) : List (List String × List String) :=
  doc.flatMap (tokenEffects doc target)

theorem subjStep_eq (doc : Doc) (target : Token) (st : List String × List String)
    (token : Token) :
    subjStep doc target st token =
      (tokenEffects doc target token).foldl (fun _ e => e) st := by
  unfold subjStep tokenEffects
  cases hs : strContains token.dep_ "subj"
  · simp
  · simp only [if_true]
    rw [List.foldl_append]
    have hhead : ((if token.head == target.i then
          [(getMorphD token.morph.person ["Third"], token.morph.number)]
        else []).foldl (fun _ e => e) st) =
        (if token.head == target.i then
          (getMorphD token.morph.person ["Third"], token.morph.number)
        else st) := by
      cases hh : token.head == target.i <;> simp [hh]
    rw [hhead]
    rw [foldl_flatMap_eq]
    congr 1
    funext st2 anc
    exact foldl_ite_eq_filterMap (fun child => child.i == target.i)
      (fun child => (getMorphD child.morph.person ["Third"], child.morph.number))
      (children doc anc) st2

theorem subjFallback_eq (doc : Doc) (target : Token)
    (init : List String × List String) :
    subjFallback doc target init = (subjEffects doc target).getLastD init := by
  unfold subjFallback subjEffects
  rw [← foldl_replace_eq_getLastD, foldl_flatMap_eq]
  congr 1
  funext st token
  exact subjStep_eq doc target st token

/-- Claim C9: in the VERB branch of check_gr, when the verb itself carries
no person, the subject-agreement fallback runs the direct-head check and the
ancestor-children check for every token whose dependency label contains
subj, with no early exit, and each later hit overwrites the earlier state:
the final person/number pair is the last element of the in-order assignment
list subjEffects (or the initial pair when no assignment fires), not the
first. -/
theorem check_gr_last_writer_wins (morph : String → Pym) (doc : Doc) (target : Token)
    (h1 : target.pos_ = "VERB") (h2 : target.morph.person = []) :
    check_gr morph target doc =
      (finalize (optList (morph target.text).tense),
        finalize ((subjEffects doc target).getLastD ([], target.morph.number)).1,
        finalize ((subjEffects doc target).getLastD ([], target.morph.number)).2,
        finalize (optList (morph target.text).aspect)) := by
  unfold check_gr
  simp only [h1, h2, beq_self_eq_true, if_true]
  rw [subjFallback_eq]

def pymW9 : String → Pym := fun _ => {}

def tgtW9 : Token := { i := 0, text := "случилось", lemma_ := "случиться", pos_ := "VERB", dep_ := "ROOT", head := 0 }

def subjW9a : Token := { i := 1, text := "я", lemma_ := "я", pos_ := "PRON", dep_ := "nsubj", head := 0,
                         morph := { person := ["First"], number := ["Sing"] } }

def subjW9b : Token := { i := 2, text := "они", lemma_ := "они", pos_ := "PRON", dep_ := "csubj", head := 0,
                         morph := { person := ["Third"], number := ["Plur"] } }

def docW9 : Doc := [tgtW9, subjW9a, subjW9b]

/-- Witness for claim C9 at a concrete sentence with two qualifying subject
tokens, where the later one wins. -/
theorem check_gr_last_writer_wins_witness :
    tgtW9.pos_ = "VERB" ∧ tgtW9.morph.person = [] ∧
      check_gr pymW9 tgtW9 docW9 =
        (finalize (optList (pymW9 tgtW9.text).tense),
          finalize ((subjEffects docW9 tgtW9).getLastD ([], tgtW9.morph.number)).1,
          finalize ((subjEffects docW9 tgtW9).getLastD ([], tgtW9.morph.number)).2,
          finalize (optList (pymW9 tgtW9.text).aspect)) :=
  ⟨rfl, rfl, check_gr_last_writer_wins pymW9 docW9 tgtW9 rfl rfl⟩

theorem check_for_negation_cases (target : Token) (doc : Doc) :
    check_for_negation target doc = "negation" ∨ check_for_negation target doc = "no" := by
  unfold check_for_negation
  rcases hf : doc.find? (fun token => token.head == target.i && token.lemma_ == "не")
      with _ | tok
  · rw [hf]
    exact Or.inr rfl
  · rw [hf]
    exact Or.inl rfl

theorem make_new_df_ok (nlp : String → Doc) (morph : String → Pym)
    (rows : List InputRecord) (out : List OutputRecord)
    (h : make_new_df nlp morph rows = Except.ok out) :
    ∃ recs, buildRows nlp morph rows = Except.ok recs ∧
      out = recs.map normalizeRecord := by
  unfold make_new_df at h
  split at h
  · exact absurd h (by simp)
  · next recs heq =>
    refine ⟨recs, heq, ?_⟩
    simpa using h.symm

theorem buildRows_ok_get (nlp : String → Doc) (morph : String → Pym)
    (rows : List InputRecord) (recs : List OutputRecord)
    (h : buildRows nlp morph rows = Except.ok recs) :
    ∀ (i : Nat) (row : InputRecord) (rec : OutputRecord),
      rows.get? i = some row → recs.get? i = some rec →
      buildRecord nlp morph row = Except.ok rec := by
  induction rows generalizing recs with
  | nil =>
    intro i row rec hrow _
    simp [List.get?] at hrow
  | cons r rest ih =>
    intro i row rec hrow hrec
    unfold buildRows at h
    split at h
    · exact absurd h (by simp)
    · next r0 heq0 =>
      split at h
      · exact absurd h (by simp)
      · next rs heqs =>
        simp only [Except.ok.injEq] at h
        subst h
        cases i with
        | zero =>
          simp only [List.get?] at hrow hrec
          obtain rfl : r = row := by simpa using hrow
          obtain rfl : r0 = rec := by simpa using hrec
          exact heq0
        | succ j =>
          simp only [List.get?] at hrow hrec
          exact ih rs heqs j row rec hrow hrec

theorem buildRecord_embedding (nlp : String → Doc) (morph : String → Pym)
    (row : InputRecord) (rec : OutputRecord)
    (h : buildRecord nlp morph row = Except.ok rec) :
    (find_target_tokens morph (nlp row.Target) row.Verb = none ∧ rec.Embedding = "-") ∨
      (find_target_tokens morph (nlp row.Target) row.Verb ≠ none ∧
        (rec.Embedding = "negation" ∨ rec.Embedding = "no")) := by
  unfold buildRecord at h
  split at h
  · next hnone =>
    left
    refine ⟨hnone, ?_⟩
    obtain rfl : _ = rec := by simpa using h
    rfl
  · next token1 token2 hsome =>
    right
    refine ⟨by simp [hsome], ?_⟩
    split at h
    · exact absurd h (by simp)
    · next conj hconj =>
      obtain rfl : _ = rec := by simpa using h
      exact check_for_negation_cases token1 (nlp row.Target)

/-- Claim C3 (amended): the Embedding field of an output record is exactly
the string negation or the string no for every record whose sentence yielded
a (target, subordinate) pair, and exactly the dash for every record where
ClauseLocator found no pair (the column slice that is normalized starts at
MatTense, so Embedding is never rewritten). -/
theorem embedding_values (nlp : String → Doc) (morph : String → Pym)
    (rows : List InputRecord) (out : List OutputRecord) (i : Nat)
    (row : InputRecord) (r : OutputRecord)
    (h : make_new_df nlp morph rows = Except.ok out)
    (hrow : rows.get? i = some row) (hr : out.get? i = some r) :
    (find_target_tokens morph (nlp row.Target) row.Verb = none ∧ r.Embedding = "-") ∨
      (find_target_tokens morph (nlp row.Target) row.Verb ≠ none ∧
        (r.Embedding = "negation" ∨ r.Embedding = "no")) := by
  obtain ⟨recs, hb, rfl⟩ := make_new_df_ok nlp morph rows out h
  rw [List.get?_map] at hr
  obtain ⟨rec, hrec, rfl⟩ := Option.map_eq_some'.mp hr
  have hbr := buildRows_ok_get nlp morph rows recs hb i row rec hrow hrec
  rcases buildRecord_embedding nlp morph row rec hbr with ⟨h1, h2⟩ | ⟨h1, h2⟩
  · exact Or.inl ⟨h1, h2⟩
  · exact Or.inr ⟨h1, h2⟩

def pymP : String → Pym := fun _ => {}

def nlpC3 : String → Doc := fun _ => []

def rowC3 : InputRecord := { Verb := "думать", Target := "Пришёл." }

/-- Claim C3 counterexample: for a record whose sentence contains no pair
(here the parse is empty), the Embedding field of the output record is the
dash, not negation and not no. -/
theorem embedding_dash_on_no_pair :
    Except.map (List.map OutputRecord.Embedding) (make_new_df nlpC3 pymP [rowC3]) =
        Except.ok ["-"] ∧
      ("-" : String) ≠ "negation" ∧ ("-" : String) ≠ "no" :=
  ⟨rfl, by decide, by decide⟩

def vW3 : Token := { i := 0, text := "думаю", lemma_ := "думать", pos_ := "VERB", dep_ := "ROOT", head := 0 }

def sW3 : Token := { i := 1, text := "придёт", lemma_ := "прийти", pos_ := "VERB", dep_ := "ccomp", head := 0 }

def nlpW3 : String → Doc := fun _ => [vW3, sW3]

def rowW3 : InputRecord := { Verb := "думать", Target := "Думаю придёт." }

def outW3 : OutputRecord :=
  ((make_new_df nlpW3 pymP [rowW3]).toOption.getD []).getD 0 default

/-- Witness for the amended claim C3 at a concrete record whose sentence
yields a pair. -/
theorem embedding_values_witness :
    (find_target_tokens pymP (nlpW3 rowW3.Target) rowW3.Verb = none ∧
        outW3.Embedding = "-") ∨
      (find_target_tokens pymP (nlpW3 rowW3.Target) rowW3.Verb ≠ none ∧
        (outW3.Embedding = "negation" ∨ outW3.Embedding = "no")) :=
  embedding_values nlpW3 pymP [rowW3] [outW3] 0 rowW3 outW3 rfl rfl rfl

/-- Claim C5 (amended): after normalization no derived grammatical field is
ever a member of the mapping's raw-tag domain: raw values in the domain are
translated to the canonical vocabulary, while raw values outside the domain
pass through unchanged (and are fixed points of the mapping), so a raw tag
unknown to the mapping can survive verbatim in the output. -/
theorem normalized_fields_outside_domain (nlp : String → Doc) (morph : String → Pym)
    (rows : List InputRecord) (out : List OutputRecord) (r : OutputRecord) (v : String)
    (h : make_new_df nlp morph rows = Except.ok out) (hr : r ∈ out)
    (hv : v ∈ derivedFields r) : v ∉ mappingKeys ∧ mapping_get v = v := by
  obtain ⟨recs, hb, rfl⟩ := make_new_df_ok nlp morph rows out h
  obtain ⟨rec, hrec, rfl⟩ := List.mem_map.mp hr
  have hder : derivedFields (normalizeRecord rec) = (derivedFields rec).map mapping_get := rfl
  rw [hder] at hv
  obtain ⟨raw, -, rfl⟩ := List.mem_map.mp hv
  exact ⟨mapping_get_not_mem raw, mapping_get_eq_self _ (mapping_get_not_mem raw)⟩

def tC5 : Token := { i := 0, text := "пришл", lemma_ := "прийти", pos_ := "VERB", dep_ := "ROOT", head := 0,
                     morph := { person := ["Xyz"], number := ["Sing"] } }

def uC5 : Token := { i := 1, text := "гость", lemma_ := "гость", pos_ := "NOUN", dep_ := "obj", head := 0 }

def nlpC5 : String → Doc := fun _ => [tC5, uC5]

def rowC5 : InputRecord := { Verb := "прийти", Target := "Пришл гость." }

/-- Claim C5 counterexample: the morphological annotation supplies the raw
person value Xyz, which is not a key of the mapping; the output record's
main-person field is the untranslated raw tag Xyz, which is not in the
canonical vocabulary. -/
theorem raw_tag_passthrough :
    Except.map (List.map OutputRecord.MatSubjPers) (make_new_df nlpC5 pymP [rowC5]) =
        Except.ok ["Xyz"] ∧
      ("Xyz" : String) ∉ canonVocab :=
  ⟨rfl, by decide⟩

def outW5 : OutputRecord :=
  ((make_new_df nlpC5 pymP [rowC5]).toOption.getD []).getD 0 default

/-- Witness for the amended claim C5 at a concrete output record. -/
theorem normalized_fields_outside_domain_witness :
    outW5.MatSubjPers ∉ mappingKeys ∧ mapping_get outW5.MatSubjPers = outW5.MatSubjPers :=
  normalized_fields_outside_domain nlpC5 pymP [rowC5] [outW5] outW5 outW5.MatSubjPers
    rfl (by simp) (by simp [derivedFields])

def sC8 : Token := { i := 0, text := "пришёл", lemma_ := "прийти", pos_ := "VERB", dep_ := "ROOT", head := 0 }

def mC8 : Token := { i := 1, text := "думаю", lemma_ := "думать", pos_ := "VERB", dep_ := "parataxis", head := 0 }

def nlpC8 : String → Doc := fun _ => [sC8, mC8]

def rowC8 : InputRecord := { Verb := "думать", Target := "Пришёл, думаю." }

/-- Claim C8 (code bug): the pipeline is supposed to produce exactly one
output record per input record, but on this one-record batch the target verb
is the last token, its subordinate partner precedes it (the inverted
parataxis tier), and the conjunction scan's first neighbour access is out of
range: the whole batch aborts with the propagated error and produces no
output records at all. -/
theorem make_new_df_raises_on_batch :
    ([rowC8] : List InputRecord).length = 1 ∧
      make_new_df nlpC8 pymP [rowC8] = Except.error () :=
  ⟨rfl, rfl⟩

end Parsing
